import Mathlib

/-!
# Verification of the High_Close_Ratio signal/backtest core

Shallow embedding of the core computation of `High_Close_Ratio.py`:
the indicator derivation (rolling SMA, rolling average volume,
close-to-high ratio, volume ratio), the per-bar signal conjunction, the
next-bar forward return, and the backtest aggregation.

Numeric values produced by the pandas pipeline are modelled by `PFloat`:
either a finite rational, a signed infinity, or NaN, with the IEEE-754
division/comparison semantics that numpy/pandas use (finite magnitudes
are modelled exactly by `ℚ`; rounding of finite arithmetic is abstracted
away).  This matters because the source guards divisions only with
`.fillna(0)`, which replaces NaN (the 0/0 case) but not ±inf (the x/0,
x ≠ 0 case).
-/

namespace HighCloseRatio

/-- A pandas/numpy floating value: NaN, +∞, -∞, or a finite value
(modelled exactly as a rational). -/
inductive PFloat where
  | nan : PFloat
  | inf : PFloat
  | ninf : PFloat
  | fin : ℚ → PFloat
deriving DecidableEq, Repr

namespace PFloat

/-- IEEE-754 division as performed by pandas `Series.__div__`:
NaN propagates; `x / 0` is NaN for `x = 0` and a signed infinity for
`x ≠ 0` (zeros coming out of pandas arithmetic here are `+0`). -/
def div : PFloat → PFloat → PFloat
  | nan, _ => nan
  | _, nan => nan
  | fin x, fin y =>
      if y = 0 then (if x = 0 then nan else if 0 < x then inf else ninf)
      else fin (x / y)
  | fin _, inf => fin 0
  | fin _, ninf => fin 0
  | inf, fin y => if y < 0 then ninf else inf
  | ninf, fin y => if y < 0 then inf else ninf
  | inf, inf => nan
  | inf, ninf => nan
  | ninf, inf => nan
  | ninf, ninf => nan

/-- IEEE-754 subtraction: NaN propagates; `∞ - ∞` is NaN. -/
def sub : PFloat → PFloat → PFloat
  | nan, _ => nan
  | _, nan => nan
  | fin x, fin y => fin (x - y)
  | inf, inf => nan
  | ninf, ninf => nan
  | inf, _ => inf
  | ninf, _ => ninf
  | fin _, inf => ninf
  | fin _, ninf => inf

/-- IEEE-754 addition: NaN propagates; `∞ + (-∞)` is NaN. -/
def add : PFloat → PFloat → PFloat
  | nan, _ => nan
  | _, nan => nan
  | fin x, fin y => fin (x + y)
  | inf, ninf => nan
  | ninf, inf => nan
  | inf, _ => inf
  | ninf, _ => ninf
  | fin _, inf => inf
  | fin _, ninf => ninf

/-- IEEE-754 strict less-than: any comparison with NaN is `false`. -/
def lt : PFloat → PFloat → Bool
  | nan, _ => false
  | _, nan => false
  | fin x, fin y => decide (x < y)
  | fin _, inf => true
  | fin _, ninf => false
  | inf, _ => false
  | ninf, ninf => false
  | ninf, _ => true

/-- IEEE-754 less-or-equal: any comparison with NaN is `false`. -/
def le : PFloat → PFloat → Bool
  | nan, _ => false
  | _, nan => false
  | fin x, fin y => decide (x ≤ y)
  | fin _, inf => true
  | fin _, ninf => false
  | inf, inf => true
  | inf, _ => false
  | ninf, _ => true

/-- `a > b` as pandas evaluates it. -/
def gt (a b : PFloat) : Bool := lt b a

/-- `a ≥ b` as pandas evaluates it. -/
def ge (a b : PFloat) : Bool := le b a

/-- Is this value NaN?  (`pandas.isna`.) -/
def isNa : PFloat → Bool
  | nan => true
  | _ => false

/-- `Series.fillna(0)`: replaces NaN by 0, leaves every other value
(including ±∞) unchanged. -/
def fillna0 : PFloat → PFloat
  | nan => fin 0
  | x => x

/-- Multiplication by the positive literal `100` (used by the source only
to render rates as percentages): NaN and infinities are preserved. -/
def mul100 : PFloat → PFloat
  | nan => nan
  | inf => inf
  | ninf => ninf
  | fin q => fin (100 * q)

end PFloat

/-- One input row: a price/volume bar.  The timestamp is the (unique,
ascending) index of the pandas DataFrame. -/
structure Bar where
  timestamp : ℕ
  Open : ℚ
  High : ℚ
  Low : ℚ
  Close : ℚ
  Volume : ℚ
deriving DecidableEq, Repr

instance : Inhabited Bar := ⟨⟨0, 0, 0, 0, 0, 0⟩⟩

/-- The `Close` column. -/
def closes (bars : List Bar) : List ℚ := bars.map Bar.Close

/-- The `High` column. -/
def highs (bars : List Bar) : List ℚ := bars.map Bar.High

/-- The `Volume` column. -/
def volumes (bars : List Bar) : List ℚ := bars.map Bar.Volume

/-- `Series.rolling(window=w).mean()`: NaN while fewer than `w`
observations are available (positions `t` with `t + 1 < w`), otherwise
the arithmetic mean of the `w` values ending at and including `t`. -/
def rollingMeanNa (w : ℕ) (xs : List ℚ) : List PFloat :=
  (List.range xs.length).map (fun t =>
    if t + 1 < w then PFloat.nan
    else PFloat.fin (((xs.take (t + 1)).drop (t + 1 - w)).sum / w))

/-- `data['SMA'] = data['Close'].rolling(window=sma_period).mean().fillna(0)`
(source lines 76–79). -/
def SMA (sma_period : ℕ) (bars : List Bar) : List PFloat :=
  (rollingMeanNa sma_period (closes bars)).map PFloat.fillna0

/-- `data['Avg_Volume'] = data['Volume'].rolling(window=20).mean().fillna(0)`
(source lines 81–84). -/
def Avg_Volume (bars : List Bar) : List PFloat :=
  (rollingMeanNa 20 (volumes bars)).map PFloat.fillna0

/-- `data['High_Close_Ratio'] = (data['Close'] / data['High']).fillna(0)`
(source lines 86–89). -/
def High_Close_Ratio (bars : List Bar) : List PFloat :=
  (List.zipWith (fun c h => PFloat.div (PFloat.fin c) (PFloat.fin h))
    (closes bars) (highs bars)).map PFloat.fillna0

/-- `data['Volume_Ratio'] = (data['Volume'] / data['Avg_Volume']).fillna(0)`
(source lines 91–94). -/
def Volume_Ratio (bars : List Bar) : List PFloat :=
  (List.zipWith (fun v a => PFloat.div (PFloat.fin v) a)
    (volumes bars) (Avg_Volume bars)).map PFloat.fillna0

/-- `data['Strong_Trend'] = data['Close'] > data['SMA']` (source line 106). -/
def Strong_Trend (sma_period : ℕ) (bars : List Bar) : List Bool :=
  List.zipWith (fun c s => PFloat.gt (PFloat.fin c) s)
    (closes bars) (SMA sma_period bars)

/-- `data['High_Close'] = data['High_Close_Ratio'] >= high_close_threshold`
(source line 107). -/
def High_Close (high_close_threshold : ℚ) (bars : List Bar) : List Bool :=
  (High_Close_Ratio bars).map (fun r => PFloat.ge r (PFloat.fin high_close_threshold))

/-- `data['High_Volume'] = data['Volume_Ratio'] > volume_multiplier`
(source line 108). -/
def High_Volume (volume_multiplier : ℚ) (bars : List Bar) : List Bool :=
  (Volume_Ratio bars).map (fun r => PFloat.gt r (PFloat.fin volume_multiplier))

/-- `data['Signal'] = Strong_Trend & High_Close & High_Volume`
(source line 109). -/
def Signal (sma_period : ℕ) (high_close_threshold volume_multiplier : ℚ)
    (bars : List Bar) : List Bool :=
  List.zipWith (fun a b => a && b) (Strong_Trend sma_period bars)
    (List.zipWith (fun a b => a && b) (High_Close high_close_threshold bars)
      (High_Volume volume_multiplier bars))

/-- `data['Next_Close'] = data['Close'].shift(-1)` (source line 112):
the close of the following row, NaN for the last row. -/
def Next_Close (bars : List Bar) : List PFloat :=
  (List.range bars.length).map (fun t =>
    (((closes bars).drop (t + 1)).head?).elim PFloat.nan PFloat.fin)

/-- `data['Return'] = (data['Next_Close'] - data['Close']) / data['Close']`
(source line 113). -/
def Return (bars : List Bar) : List PFloat :=
  List.zipWith (fun nc c => PFloat.div (PFloat.sub nc (PFloat.fin c)) (PFloat.fin c))
    (Next_Close bars) (closes bars)

/-- `data['Success'] = data['Return'] > 0` (source line 114). -/
def Success (bars : List Bar) : List Bool :=
  (Return bars).map (fun r => PFloat.gt r (PFloat.fin 0))

/-- Row indices of `signals = data[data['Signal'] == True]` followed by
`signals.dropna(subset=['Next_Close'])` (source lines 117–118). -/
def signalIdx (sma_period : ℕ) (high_close_threshold volume_multiplier : ℚ)
    (bars : List Bar) : List ℕ :=
  (List.range bars.length).filter (fun t =>
    (Signal sma_period high_close_threshold volume_multiplier bars).getD t false
      && !((Next_Close bars).getD t PFloat.nan).isNa)

/-- One row of the filtered `signals` frame, in the column selection the
source displays/exports (plus the index timestamp). -/
structure SignalRecord where
  timestamp : ℕ
  Close : ℚ
  High_Close_Ratio : PFloat
  Volume_Ratio : PFloat
  Next_Close : PFloat
  Return : PFloat
  Success : Bool
deriving DecidableEq, Repr

/-- The ordered list of signal records: the rows of `signals` after both
filters, with their per-row column values. -/
def signal_records (sma_period : ℕ) (high_close_threshold volume_multiplier : ℚ)
    (bars : List Bar) : List SignalRecord :=
  (signalIdx sma_period high_close_threshold volume_multiplier bars).map (fun t =>
    { timestamp := (bars.getD t default).timestamp
      Close := (closes bars).getD t 0
      High_Close_Ratio := (High_Close_Ratio bars).getD t PFloat.nan
      Volume_Ratio := (Volume_Ratio bars).getD t PFloat.nan
      Next_Close := (Next_Close bars).getD t PFloat.nan
      Return := (Return bars).getD t PFloat.nan
      Success := (Success bars).getD t false })

/-- `signals['Success'].mean()`: mean of a boolean column, the fraction
of `True` entries (NaN on an empty column). -/
def boolMean (l : List Bool) : PFloat :=
  if l.length = 0 then PFloat.nan
  else PFloat.fin ((l.countP id : ℚ) / l.length)

/-- `Series.mean()` with pandas' default `skipna=True`: NaN entries are
dropped, then the sum of the rest is divided by their count (NaN if all
entries were NaN or the column is empty). -/
def pmean (l : List PFloat) : PFloat :=
  let l2 := l.filter (fun x => !x.isNa)
  if l2.length = 0 then PFloat.nan
  else PFloat.div (l2.foldl PFloat.add (PFloat.fin 0)) (PFloat.fin l2.length)

/-- The aggregate result shown when signals were found (source lines
124–126 and 169): `total_signals`, `successes`, `success_rate` (the
Success mean scaled to percent) and `avg_return` (the Return mean scaled
to percent). -/
structure BacktestSummary where
  total_signals : ℕ
  successes : ℕ
  success_rate : PFloat
  avg_return : PFloat
deriving DecidableEq, Repr

/-- Outcome of a run: either the `signals.empty` warning branch
("no signals found", source lines 120–121), or the records plus the
aggregate summary. -/
inductive BacktestOutcome where
  | noSignals : BacktestOutcome
  | results : List SignalRecord → BacktestSummary → BacktestOutcome
deriving DecidableEq, Repr

/-- The whole core run (source lines 76–126 and 169): derive indicators,
evaluate the signal conjunction, filter to signal rows with a defined
next close, and aggregate. -/
def run_backtest (sma_period : ℕ) (high_close_threshold volume_multiplier : ℚ)
    (bars : List Bar) : BacktestOutcome :=
  let recs := signal_records sma_period high_close_threshold volume_multiplier bars
  if recs.isEmpty then BacktestOutcome.noSignals
  else
    BacktestOutcome.results recs
      { total_signals := recs.length
        successes := recs.countP (fun r => r.Success)
        success_rate := (boolMean (recs.map (fun r => r.Success))).mul100
        avg_return := (pmean (recs.map (fun r => r.Return))).mul100 }

/-! ## Helper lemmas: lengths of the derived columns -/

@[simp] lemma closes_length (bars : List Bar) : (closes bars).length = bars.length :=
  List.length_map _ _

@[simp] lemma highs_length (bars : List Bar) : (highs bars).length = bars.length :=
  List.length_map _ _

@[simp] lemma volumes_length (bars : List Bar) : (volumes bars).length = bars.length :=
  List.length_map _ _

@[simp] lemma rollingMeanNa_length (w : ℕ) (xs : List ℚ) :
    (rollingMeanNa w xs).length = xs.length := by
  simp [rollingMeanNa]

@[simp] lemma SMA_length (w : ℕ) (bars : List Bar) :
    (SMA w bars).length = bars.length := by
  simp [SMA]

@[simp] lemma Avg_Volume_length (bars : List Bar) :
    (Avg_Volume bars).length = bars.length := by
  simp [Avg_Volume]

@[simp] lemma High_Close_Ratio_length (bars : List Bar) :
    (High_Close_Ratio bars).length = bars.length := by
  simp [High_Close_Ratio]

@[simp] lemma Volume_Ratio_length (bars : List Bar) :
    (Volume_Ratio bars).length = bars.length := by
  simp [Volume_Ratio]

@[simp] lemma Strong_Trend_length (w : ℕ) (bars : List Bar) :
    (Strong_Trend w bars).length = bars.length := by
  simp [Strong_Trend]

@[simp] lemma High_Close_length (th : ℚ) (bars : List Bar) :
    (High_Close th bars).length = bars.length := by
  simp [High_Close]

@[simp] lemma High_Volume_length (mult : ℚ) (bars : List Bar) :
    (High_Volume mult bars).length = bars.length := by
  simp [High_Volume]

@[simp] lemma Signal_length (w : ℕ) (th mult : ℚ) (bars : List Bar) :
    (Signal w th mult bars).length = bars.length := by
  simp [Signal]

@[simp] lemma Next_Close_length (bars : List Bar) :
    (Next_Close bars).length = bars.length := by
  simp [Next_Close]

@[simp] lemma Return_length (bars : List Bar) :
    (Return bars).length = bars.length := by
  simp [Return]

@[simp] lemma Success_length (bars : List Bar) :
    (Success bars).length = bars.length := by
  simp [Success]

/-! ## Helper lemmas: pointwise values of the derived columns -/

lemma closes_getD (bars : List Bar) (t : ℕ) (h : t < bars.length) :
    (closes bars).getD t 0 = (bars.getD t default).Close := by
  rw [List.getD_eq_getElem _ _ (by simpa using h), List.getD_eq_getElem _ _ h]
  simp [closes]

lemma highs_getD (bars : List Bar) (t : ℕ) (h : t < bars.length) :
    (highs bars).getD t 0 = (bars.getD t default).High := by
  rw [List.getD_eq_getElem _ _ (by simpa using h), List.getD_eq_getElem _ _ h]
  simp [highs]

lemma volumes_getD (bars : List Bar) (t : ℕ) (h : t < bars.length) :
    (volumes bars).getD t 0 = (bars.getD t default).Volume := by
  rw [List.getD_eq_getElem _ _ (by simpa using h), List.getD_eq_getElem _ _ h]
  simp [volumes]

lemma rollingMeanNa_getD (w : ℕ) (xs : List ℚ) (t : ℕ) (h : t < xs.length) :
    (rollingMeanNa w xs).getD t PFloat.nan =
      if t + 1 < w then PFloat.nan
      else PFloat.fin (((xs.take (t + 1)).drop (t + 1 - w)).sum / w) := by
  rw [List.getD_eq_getElem _ _ (by simpa using h)]
  simp [rollingMeanNa]

lemma SMA_getD (w : ℕ) (bars : List Bar) (t : ℕ) (h : t < bars.length) :
    (SMA w bars).getD t PFloat.nan =
      if t + 1 < w then PFloat.fin 0
      else PFloat.fin ((((closes bars).take (t + 1)).drop (t + 1 - w)).sum / w) := by
  rw [List.getD_eq_getElem _ _ (by simpa using h)]
  have h2 : t < (rollingMeanNa w (closes bars)).length := by simpa using h
  simp only [SMA, List.getElem_map]
  rw [← List.getD_eq_getElem _ PFloat.nan h2, rollingMeanNa_getD _ _ _ (by simpa using h)]
  by_cases hc : t + 1 < w <;> simp [hc, PFloat.fillna0]

lemma Avg_Volume_getD (bars : List Bar) (t : ℕ) (h : t < bars.length) :
    (Avg_Volume bars).getD t PFloat.nan =
      if t + 1 < 20 then PFloat.fin 0
      else PFloat.fin ((((volumes bars).take (t + 1)).drop (t + 1 - 20)).sum / 20) := by
  rw [List.getD_eq_getElem _ _ (by simpa using h)]
  have h2 : t < (rollingMeanNa 20 (volumes bars)).length := by simpa using h
  simp only [Avg_Volume, List.getElem_map]
  rw [← List.getD_eq_getElem _ PFloat.nan h2, rollingMeanNa_getD _ _ _ (by simpa using h)]
  by_cases hc : t + 1 < 20 <;> simp [hc, PFloat.fillna0]

lemma High_Close_Ratio_getD (bars : List Bar) (t : ℕ) (h : t < bars.length) :
    (High_Close_Ratio bars).getD t PFloat.nan =
      PFloat.fillna0 (PFloat.div (PFloat.fin ((bars.getD t default).Close))
        (PFloat.fin ((bars.getD t default).High))) := by
  rw [List.getD_eq_getElem _ _ (by simpa using h)]
  simp only [High_Close_Ratio, List.getElem_map, List.getElem_zipWith]
  rw [List.getD_eq_getElem _ _ h]
  simp [closes, highs]

lemma Volume_Ratio_getD (bars : List Bar) (t : ℕ) (h : t < bars.length) :
    (Volume_Ratio bars).getD t PFloat.nan =
      PFloat.fillna0 (PFloat.div (PFloat.fin ((bars.getD t default).Volume))
        ((Avg_Volume bars).getD t PFloat.nan)) := by
  rw [List.getD_eq_getElem _ _ (by simpa using h)]
  simp only [Volume_Ratio, List.getElem_map, List.getElem_zipWith]
  rw [List.getD_eq_getElem _ _ h, List.getD_eq_getElem _ _ (by simpa using h)]
  simp [volumes]

lemma Strong_Trend_getD (w : ℕ) (bars : List Bar) (t : ℕ) (h : t < bars.length) :
    (Strong_Trend w bars).getD t false =
      PFloat.gt (PFloat.fin ((bars.getD t default).Close)) ((SMA w bars).getD t PFloat.nan) := by
  rw [List.getD_eq_getElem _ _ (by simpa using h)]
  simp only [Strong_Trend, List.getElem_zipWith]
  rw [List.getD_eq_getElem _ _ h, List.getD_eq_getElem _ _ (by simpa using h)]
  simp [closes]

lemma High_Close_getD (th : ℚ) (bars : List Bar) (t : ℕ) (h : t < bars.length) :
    (High_Close th bars).getD t false =
      PFloat.ge ((High_Close_Ratio bars).getD t PFloat.nan) (PFloat.fin th) := by
  rw [List.getD_eq_getElem _ _ (by simpa using h)]
  simp only [High_Close, List.getElem_map]
  rw [List.getD_eq_getElem _ _ (by simpa using h)]

lemma High_Volume_getD (mult : ℚ) (bars : List Bar) (t : ℕ) (h : t < bars.length) :
    (High_Volume mult bars).getD t false =
      PFloat.gt ((Volume_Ratio bars).getD t PFloat.nan) (PFloat.fin mult) := by
  rw [List.getD_eq_getElem _ _ (by simpa using h)]
  simp only [High_Volume, List.getElem_map]
  rw [List.getD_eq_getElem _ _ (by simpa using h)]

lemma Signal_getD (w : ℕ) (th mult : ℚ) (bars : List Bar) (t : ℕ) (h : t < bars.length) :
    (Signal w th mult bars).getD t false =
      ((Strong_Trend w bars).getD t false
        && ((High_Close th bars).getD t false && (High_Volume mult bars).getD t false)) := by
  rw [List.getD_eq_getElem _ _ (by simpa using h)]
  simp only [Signal, List.getElem_zipWith]
  rw [List.getD_eq_getElem _ _ (by simpa using h), List.getD_eq_getElem _ _ (by simpa using h),
    List.getD_eq_getElem _ _ (by simpa using h)]

lemma Next_Close_getD (bars : List Bar) (t : ℕ) (h : t < bars.length) :
    (Next_Close bars).getD t PFloat.nan =
      if h2 : t + 1 < bars.length
      then PFloat.fin ((closes bars).getD (t + 1) 0)
      else PFloat.nan := by
  rw [List.getD_eq_getElem _ _ (by simpa using h)]
  simp only [Next_Close, List.getElem_map, List.getElem_range, List.head?_drop]
  by_cases h2 : t + 1 < bars.length
  · rw [List.getElem?_eq_getElem (by simpa using h2)]
    rw [dif_pos h2, List.getD_eq_getElem _ _ (by simpa using h2)]
    rfl
  · rw [dif_neg h2, List.getElem?_eq_none (by simpa using Nat.le_of_not_lt h2)]
    rfl

lemma Return_getD (bars : List Bar) (t : ℕ) (h : t < bars.length) :
    (Return bars).getD t PFloat.nan =
      PFloat.div (PFloat.sub ((Next_Close bars).getD t PFloat.nan)
          (PFloat.fin ((bars.getD t default).Close)))
        (PFloat.fin ((bars.getD t default).Close)) := by
  rw [List.getD_eq_getElem _ _ (by simpa using h)]
  simp only [Return, List.getElem_zipWith]
  rw [List.getD_eq_getElem _ _ (by simpa using h), List.getD_eq_getElem _ _ h]
  simp [closes]

lemma Success_getD (bars : List Bar) (t : ℕ) (h : t < bars.length) :
    (Success bars).getD t false =
      PFloat.gt ((Return bars).getD t PFloat.nan) (PFloat.fin 0) := by
  rw [List.getD_eq_getElem _ _ (by simpa using h)]
  simp only [Success, List.getElem_map]
  rw [List.getD_eq_getElem _ _ (by simpa using h)]

lemma mem_signalIdx (w : ℕ) (th mult : ℚ) (bars : List Bar) (t : ℕ) :
    t ∈ signalIdx w th mult bars ↔
      t < bars.length
        ∧ (Signal w th mult bars).getD t false = true
        ∧ ((Next_Close bars).getD t PFloat.nan).isNa = false := by
  simp [signalIdx, List.mem_filter, List.mem_range, Bool.and_eq_true, and_assoc]

lemma mem_signal_records (w : ℕ) (th mult : ℚ) (bars : List Bar) (r : SignalRecord) :
    r ∈ signal_records w th mult bars ↔
      ∃ t ∈ signalIdx w th mult bars,
        r = { timestamp := (bars.getD t default).timestamp
              Close := (closes bars).getD t 0
              High_Close_Ratio := (High_Close_Ratio bars).getD t PFloat.nan
              Volume_Ratio := (Volume_Ratio bars).getD t PFloat.nan
              Next_Close := (Next_Close bars).getD t PFloat.nan
              Return := (Return bars).getD t PFloat.nan
              Success := (Success bars).getD t false } := by
  simp only [signal_records, List.mem_map]
  constructor
  · rintro ⟨t, ht, rfl⟩
    exact ⟨t, ht, rfl⟩
  · rintro ⟨t, ht, rfl⟩
    exact ⟨t, ht, rfl⟩

/-- A trailing-window slice sum written as a `Finset.range` sum. -/
lemma take_drop_sum (xs : List ℚ) (a b : ℕ) (h : a + b ≤ xs.length) :
    ((xs.take (a + b)).drop a).sum = ∑ i ∈ Finset.range b, xs.getD (a + i) 0 := by
  induction b with
  | zero =>
      rw [Nat.add_zero, List.drop_eq_nil_of_le (by simp), List.sum_nil, Finset.sum_range_zero]
  | succ b ih =>
      have hab : a + b < xs.length := by omega
      rw [show a + (b + 1) = (a + b) + 1 by omega, List.take_succ,
        List.getElem?_eq_getElem hab]
      rw [List.drop_append_of_le_length (by simp; omega), List.sum_append,
        ih (by omega), Finset.sum_range_succ]
      rw [List.getD_eq_getElem _ _ hab]
      simp

/-- Folding IEEE addition over a list of finite values is the finite sum. -/
lemma foldl_add_fin (qs : List ℚ) (a : ℚ) :
    (qs.map PFloat.fin).foldl PFloat.add (PFloat.fin a) = PFloat.fin (a + qs.sum) := by
  induction qs generalizing a with
  | nil => simp
  | cons q qs ih =>
      simp only [List.map_cons, List.foldl_cons, PFloat.add, List.sum_cons, ih]
      ring_nf

/-- During warm-up the SMA value is 0; afterwards it is a window mean of
closes, so it is non-negative whenever all closes are non-negative. -/
lemma SMA_nonneg (w : ℕ) (bars : List Bar) (t : ℕ) (h : t < bars.length)
    (hc : ∀ b ∈ bars, 0 ≤ b.Close) :
    ∃ s : ℚ, (SMA w bars).getD t PFloat.nan = PFloat.fin s ∧ 0 ≤ s := by
  rw [SMA_getD _ _ _ h]
  by_cases hw : t + 1 < w
  · rw [if_pos hw]
    exact ⟨0, rfl, le_refl 0⟩
  · rw [if_neg hw]
    refine ⟨_, rfl, ?_⟩
    apply div_nonneg _ (by positivity)
    apply List.sum_nonneg
    intro x hx
    have hx2 : x ∈ closes bars := List.take_subset _ _ (List.drop_subset _ _ hx)
    obtain ⟨b, hb, rfl⟩ := List.mem_map.mp hx2
    exact hc b hb

/-- The guarded quotient of two finite values, spelled out: `.fillna(0)`
turns the NaN of `0 / 0` into 0 but leaves the infinities of `x / 0`
(`x ≠ 0`) untouched. -/
lemma fillna0_div_fin (x y : ℚ) :
    PFloat.fillna0 (PFloat.div (PFloat.fin x) (PFloat.fin y)) =
      if y = 0 then
        (if x = 0 then PFloat.fin 0 else (if 0 < x then PFloat.inf else PFloat.ninf))
      else PFloat.fin (x / y) := by
  by_cases hy : y = 0
  · by_cases hx : x = 0
    · simp [PFloat.div, PFloat.fillna0, hy, hx]
    · by_cases hx2 : 0 < x <;> simp [PFloat.div, PFloat.fillna0, hy, hx, hx2]
  · simp [PFloat.div, PFloat.fillna0, hy]

@[simp] lemma PFloat.lt_fin_fin (x y : ℚ) :
    PFloat.lt (PFloat.fin x) (PFloat.fin y) = decide (x < y) := rfl

@[simp] lemma PFloat.le_fin_fin (x y : ℚ) :
    PFloat.le (PFloat.fin x) (PFloat.fin y) = decide (x ≤ y) := rfl

@[simp] lemma PFloat.lt_fin_inf (x : ℚ) :
    PFloat.lt (PFloat.fin x) PFloat.inf = true := rfl

@[simp] lemma PFloat.le_fin_inf (x : ℚ) :
    PFloat.le (PFloat.fin x) PFloat.inf = true := rfl

@[simp] lemma PFloat.isNa_fin (x : ℚ) : PFloat.isNa (PFloat.fin x) = false := rfl

@[simp] lemma PFloat.isNa_inf : PFloat.isNa PFloat.inf = false := rfl

@[simp] lemma PFloat.isNa_nan : PFloat.isNa PFloat.nan = true := rfl

@[simp] lemma PFloat.sub_fin_fin (x y : ℚ) :
    PFloat.sub (PFloat.fin x) (PFloat.fin y) = PFloat.fin (x - y) := rfl

@[simp] lemma PFloat.add_fin_fin (x y : ℚ) :
    PFloat.add (PFloat.fin x) (PFloat.fin y) = PFloat.fin (x + y) := rfl

@[simp] lemma PFloat.mul100_fin (x : ℚ) :
    PFloat.mul100 (PFloat.fin x) = PFloat.fin (100 * x) := rfl

@[simp] lemma PFloat.fillna0_nan : PFloat.fillna0 PFloat.nan = PFloat.fin 0 := rfl

@[simp] lemma PFloat.fillna0_fin (x : ℚ) :
    PFloat.fillna0 (PFloat.fin x) = PFloat.fin x := rfl

@[simp] lemma PFloat.fillna0_inf : PFloat.fillna0 PFloat.inf = PFloat.inf := rfl

/-! ## A concrete two-bar fixture, fully evaluated

Both bars are inside the 20-bar volume warm-up, so `Avg_Volume` is 0 and
`Volume_Ratio` is `+∞` (volume 5 divided by zero); with thresholds
`high_close_threshold = 1` and `volume_multiplier = 2` both bars satisfy
the signal conjunction, and only bar 0 has a next close. -/

def twoBars : List Bar := [⟨0, 0, 1, 0, 1, 5⟩, ⟨1, 0, 2, 0, 2, 5⟩]

lemma twoBars_closes : closes twoBars = [1, 2] := rfl

lemma twoBars_SMA : SMA 20 twoBars = [PFloat.fin 0, PFloat.fin 0] := rfl

lemma twoBars_AV : Avg_Volume twoBars = [PFloat.fin 0, PFloat.fin 0] := rfl

lemma twoBars_VR : Volume_Ratio twoBars = [PFloat.inf, PFloat.inf] := by
  norm_num [Volume_Ratio, Avg_Volume, rollingMeanNa, volumes, twoBars,
    fillna0_div_fin, (by decide : List.range 2 = [0, 1])]

lemma twoBars_HCR : High_Close_Ratio twoBars = [PFloat.fin 1, PFloat.fin 1] := by
  norm_num [High_Close_Ratio, closes, highs, twoBars, fillna0_div_fin]

lemma twoBars_Signal : Signal 20 1 2 twoBars = [true, true] := by
  norm_num [Signal, Strong_Trend, High_Close, High_Volume, twoBars_SMA, twoBars_closes,
    twoBars_HCR, twoBars_VR, PFloat.gt, PFloat.ge]

lemma twoBars_NC : Next_Close twoBars = [PFloat.fin 2, PFloat.nan] := by
  norm_num [Next_Close, closes, twoBars, (by decide : List.range 2 = [0, 1])]

lemma twoBars_Return : Return twoBars = [PFloat.fin 1, PFloat.nan] := by
  norm_num [Return, twoBars_NC, twoBars_closes, PFloat.sub, PFloat.div]

lemma twoBars_Success : Success twoBars = [true, false] := by
  norm_num [Success, twoBars_Return, PFloat.gt, PFloat.lt]

lemma twoBars_signalIdx : signalIdx 20 1 2 twoBars = [0] := by
  norm_num [signalIdx, twoBars_Signal, twoBars_NC,
    (by decide : twoBars.length = 2), (by decide : List.range 2 = [0, 1]), List.filter]

lemma twoBars_records : signal_records 20 1 2 twoBars =
    [⟨0, 1, PFloat.fin 1, PFloat.inf, PFloat.fin 2, PFloat.fin 1, true⟩] := by
  norm_num [signal_records, twoBars_signalIdx, twoBars_HCR, twoBars_VR, twoBars_NC,
    twoBars_Return, twoBars_Success, twoBars_closes,
    (by decide : twoBars[0]? = some (⟨0, 0, 1, 0, 1, 5⟩ : Bar))]

lemma twoBars_run : run_backtest 20 1 2 twoBars =
    BacktestOutcome.results [⟨0, 1, PFloat.fin 1, PFloat.inf, PFloat.fin 2, PFloat.fin 1, true⟩]
      ⟨1, 1, PFloat.fin 100, PFloat.fin 100⟩ := by
  norm_num [run_backtest, twoBars_records, boolMean, pmean, List.countP, List.countP.go,
    PFloat.mul100, PFloat.div]

/-! ## Claim theorems -/

/-- Claim C1, counterexample: on a single bar with volume 5, the bar is in
the warm-up period (so `Avg_Volume` is 0), yet `Volume_Ratio` is not 0 but
`+∞` — `5 / 0` is an infinity, which `.fillna(0)` does not replace — and
this non-finite value propagates into the `High_Volume` condition, making
it true. -/
theorem C1_counterexample :
    (Avg_Volume [⟨0, 0, 1, 0, 1, 5⟩]).getD 0 PFloat.nan = PFloat.fin 0
    ∧ (Volume_Ratio [⟨0, 0, 1, 0, 1, 5⟩]).getD 0 PFloat.nan ≠ PFloat.fin 0
    ∧ (Volume_Ratio [⟨0, 0, 1, 0, 1, 5⟩]).getD 0 PFloat.nan = PFloat.inf
    ∧ (High_Volume (3/2) [⟨0, 0, 1, 0, 1, 5⟩]).getD 0 false = true := by
  have hav : (Avg_Volume [⟨0, 0, 1, 0, 1, 5⟩]).getD 0 PFloat.nan = PFloat.fin 0 := by
    rw [Avg_Volume_getD _ 0 (by decide), if_pos (by norm_num)]
  have hvr : (Volume_Ratio [⟨0, 0, 1, 0, 1, 5⟩]).getD 0 PFloat.nan = PFloat.inf := by
    rw [Volume_Ratio_getD _ 0 (by decide), hav, fillna0_div_fin]
    norm_num
  have hhv : (High_Volume (3/2) [⟨0, 0, 1, 0, 1, 5⟩]).getD 0 false = true := by
    rw [High_Volume_getD _ _ 0 (by decide), hvr]
    rfl
  exact ⟨hav, by rw [hvr]; decide, hvr, hhv⟩

/-- Claim C1 (amended): `Volume_Ratio[t]` is `Volume[t] / Avg_Volume[t]`
under IEEE division with NaN replaced by 0: when `Avg_Volume[t] ≠ 0` it is
the finite quotient; when `Avg_Volume[t] = 0` (in particular during the
first 19 warm-up bars) it is 0 only if `Volume[t] = 0`, and `+∞` if
`Volume[t] > 0` — the infinity is not replaced and flows into the signal
conditions. -/
theorem C1_volume_ratio_characterization (bars : List Bar) (t : ℕ)
    (h : t < bars.length) (hv : 0 ≤ (bars.getD t default).Volume) :
    ∃ a : ℚ, (Avg_Volume bars).getD t PFloat.nan = PFloat.fin a
      ∧ (Volume_Ratio bars).getD t PFloat.nan =
          (if a = 0 then
            (if (bars.getD t default).Volume = 0 then PFloat.fin 0 else PFloat.inf)
           else PFloat.fin ((bars.getD t default).Volume / a)) := by
  obtain ⟨a, ha⟩ : ∃ a : ℚ, (Avg_Volume bars).getD t PFloat.nan = PFloat.fin a := by
    rw [Avg_Volume_getD bars t h]
    by_cases hw : t + 1 < 20
    · exact ⟨0, by rw [if_pos hw]⟩
    · exact ⟨_, by rw [if_neg hw]⟩
  refine ⟨a, ha, ?_⟩
  rw [Volume_Ratio_getD bars t h, ha, fillna0_div_fin]
  by_cases ha0 : a = 0
  · rw [if_pos ha0, if_pos ha0]
    by_cases hv0 : (bars.getD t default).Volume = 0
    · rw [if_pos hv0, if_pos hv0]
    · rw [if_neg hv0, if_neg hv0, if_pos (lt_of_le_of_ne hv (Ne.symm hv0))]
  · rw [if_neg ha0, if_neg ha0]

/-- Claim C2, counterexample: on a bar with close 0 and high 1 the ratio is
0 although `High ≠ 0` (so "equals 0 exactly when `high == 0`" fails), and on
a bar with close 2 and high 0 the ratio is `+∞`, not 0 (so "0 if `high` is
0" fails: `2 / 0` is an infinity which `.fillna(0)` does not replace). -/
theorem C2_counterexample :
    (High_Close_Ratio [⟨0, 0, 1, 0, 0, 5⟩, ⟨1, 0, 0, 0, 2, 5⟩]).getD 0 PFloat.nan
        = PFloat.fin 0
    ∧ ([(⟨0, 0, 1, 0, 0, 5⟩ : Bar), ⟨1, 0, 0, 0, 2, 5⟩].getD 0 default).High ≠ 0
    ∧ (High_Close_Ratio [⟨0, 0, 1, 0, 0, 5⟩, ⟨1, 0, 0, 0, 2, 5⟩]).getD 1 PFloat.nan
        = PFloat.inf
    ∧ ([(⟨0, 0, 1, 0, 0, 5⟩ : Bar), ⟨1, 0, 0, 0, 2, 5⟩].getD 1 default).High = 0 := by
  refine ⟨?_, by decide, ?_, by decide⟩
  · rw [High_Close_Ratio_getD _ 0 (by decide), fillna0_div_fin]
    norm_num
  · rw [High_Close_Ratio_getD _ 1 (by decide), fillna0_div_fin]
    norm_num

/-- Claim C2 (amended): `High_Close_Ratio[t]` is `Close[t] / High[t]` under
IEEE division with NaN replaced by 0: the finite quotient when
`High[t] ≠ 0`, and for `High[t] = 0` it is 0 if `Close[t] = 0` (the NaN
case) and `+∞` if `Close[t] > 0`.  Under the data-model precondition that
close and high are non-negative, the ratio is non-negative, and it equals 0
exactly when `Close[t] = 0`. -/
theorem C2_high_close_ratio_characterization (bars : List Bar) (t : ℕ)
    (h : t < bars.length) (hc : 0 ≤ (bars.getD t default).Close)
    (hh : 0 ≤ (bars.getD t default).High) :
    ((High_Close_Ratio bars).getD t PFloat.nan =
      (if (bars.getD t default).High = 0 then
        (if (bars.getD t default).Close = 0 then PFloat.fin 0 else PFloat.inf)
       else PFloat.fin ((bars.getD t default).Close / (bars.getD t default).High)))
    ∧ ((High_Close_Ratio bars).getD t PFloat.nan = PFloat.fin 0
        ↔ (bars.getD t default).Close = 0)
    ∧ PFloat.le (PFloat.fin 0) ((High_Close_Ratio bars).getD t PFloat.nan) = true := by
  rw [High_Close_Ratio_getD bars t h, fillna0_div_fin]
  set c := (bars.getD t default).Close with hcdef
  set hi := (bars.getD t default).High with hhdef
  by_cases hh0 : hi = 0
  · rw [if_pos hh0, if_pos hh0]
    by_cases hc0 : c = 0
    · rw [if_pos hc0, if_pos hc0]
      refine ⟨rfl, by simp [hc0], by simp⟩
    · have hpos : 0 < c := lt_of_le_of_ne hc (Ne.symm hc0)
      rw [if_neg hc0, if_neg hc0, if_pos hpos]
      refine ⟨rfl, by simp [hc0], by simp⟩
  · rw [if_neg hh0, if_neg hh0]
    refine ⟨rfl, ?_, ?_⟩
    · simp [div_eq_zero_iff, hh0]
    · simp [div_nonneg hc hh]

/-- Claim C2 witness: on a single bar with close 1 and high 2 the amended
characterization evaluates concretely. -/
theorem C2_high_close_ratio_characterization_witness :
    ((High_Close_Ratio [⟨0, 0, 2, 0, 1, 5⟩]).getD 0 PFloat.nan =
      (if (2 : ℚ) = 0 then (if (1 : ℚ) = 0 then PFloat.fin 0 else PFloat.inf)
       else PFloat.fin ((1 : ℚ) / 2)))
    ∧ ((High_Close_Ratio [⟨0, 0, 2, 0, 1, 5⟩]).getD 0 PFloat.nan = PFloat.fin 0
        ↔ (1 : ℚ) = 0)
    ∧ PFloat.le (PFloat.fin 0) ((High_Close_Ratio [⟨0, 0, 2, 0, 1, 5⟩]).getD 0 PFloat.nan)
        = true := by
  exact C2_high_close_ratio_characterization [⟨0, 0, 2, 0, 1, 5⟩] 0 (by decide)
    (by decide) (by decide)

/-- Claim C1 witness: on a single bar with volume 5 the amended
characterization evaluates concretely (warm-up average 0, ratio `+∞`). -/
theorem C1_volume_ratio_characterization_witness :
    ∃ a : ℚ, (Avg_Volume [⟨0, 0, 1, 0, 1, 5⟩]).getD 0 PFloat.nan = PFloat.fin a
      ∧ (Volume_Ratio [⟨0, 0, 1, 0, 1, 5⟩]).getD 0 PFloat.nan =
          (if a = 0 then (if (5 : ℚ) = 0 then PFloat.fin 0 else PFloat.inf)
           else PFloat.fin ((5 : ℚ) / a)) := by
  exact C1_volume_ratio_characterization [⟨0, 0, 1, 0, 1, 5⟩] 0 (by decide) (by decide)

/-- Claim C3: for every bar in range, `Strong_Trend` is exactly the strict
comparison `Close > SMA`, `High_Close` is exactly the non-strict comparison
`High_Close_Ratio ≥ high_close_threshold`, `High_Volume` is exactly the
strict comparison `Volume_Ratio > volume_multiplier`, and `Signal` is true
iff all three sub-conditions are true. -/
theorem C3_signal_conjunction (w : ℕ) (th mult : ℚ) (bars : List Bar) (t : ℕ)
    (h : t < bars.length) :
    (Strong_Trend w bars).getD t false
      = PFloat.gt (PFloat.fin ((bars.getD t default).Close)) ((SMA w bars).getD t PFloat.nan)
    ∧ (High_Close th bars).getD t false
      = PFloat.ge ((High_Close_Ratio bars).getD t PFloat.nan) (PFloat.fin th)
    ∧ (High_Volume mult bars).getD t false
      = PFloat.gt ((Volume_Ratio bars).getD t PFloat.nan) (PFloat.fin mult)
    ∧ ((Signal w th mult bars).getD t false = true ↔
        ((Strong_Trend w bars).getD t false = true
          ∧ (High_Close th bars).getD t false = true
          ∧ (High_Volume mult bars).getD t false = true)) := by
  refine ⟨Strong_Trend_getD w bars t h, High_Close_getD th bars t h,
    High_Volume_getD mult bars t h, ?_⟩
  rw [Signal_getD w th mult bars t h]
  simp [Bool.and_eq_true]

/-- Claim C3 witness: the conjunction characterization evaluated on a
single concrete bar. -/
theorem C3_signal_conjunction_witness :
    (Strong_Trend 20 [⟨0, 0, 1, 0, 1, 5⟩]).getD 0 false
      = PFloat.gt (PFloat.fin 1) ((SMA 20 [⟨0, 0, 1, 0, 1, 5⟩]).getD 0 PFloat.nan)
    ∧ (High_Close (98/100) [⟨0, 0, 1, 0, 1, 5⟩]).getD 0 false
      = PFloat.ge ((High_Close_Ratio [⟨0, 0, 1, 0, 1, 5⟩]).getD 0 PFloat.nan)
          (PFloat.fin (98/100))
    ∧ (High_Volume (3/2) [⟨0, 0, 1, 0, 1, 5⟩]).getD 0 false
      = PFloat.gt ((Volume_Ratio [⟨0, 0, 1, 0, 1, 5⟩]).getD 0 PFloat.nan)
          (PFloat.fin (3/2))
    ∧ ((Signal 20 (98/100) (3/2) [⟨0, 0, 1, 0, 1, 5⟩]).getD 0 false = true ↔
        ((Strong_Trend 20 [⟨0, 0, 1, 0, 1, 5⟩]).getD 0 false = true
          ∧ (High_Close (98/100) [⟨0, 0, 1, 0, 1, 5⟩]).getD 0 false = true
          ∧ (High_Volume (3/2) [⟨0, 0, 1, 0, 1, 5⟩]).getD 0 false = true)) := by
  exact C3_signal_conjunction 20 (98/100) (3/2) [⟨0, 0, 1, 0, 1, 5⟩] 0 (by decide)

/-- Claim C4: for a window `W ≥ 1`, `SMA[t]` is 0 on the warm-up positions
`t < W − 1` and is the arithmetic mean of the `W` most recent closes ending
at `t` afterwards; `Avg_Volume[t]` is the same with the fixed window 20
over volumes. -/
theorem C4_rolling_mean (w : ℕ) (bars : List Bar) (t : ℕ)
    (h : t < bars.length) (hw : 1 ≤ w) :
    ((t + 1 < w → (SMA w bars).getD t PFloat.nan = PFloat.fin 0)
      ∧ (w ≤ t + 1 → (SMA w bars).getD t PFloat.nan
          = PFloat.fin ((∑ i ∈ Finset.range w, (closes bars).getD (t + 1 - w + i) 0) / w)))
    ∧ ((t + 1 < 20 → (Avg_Volume bars).getD t PFloat.nan = PFloat.fin 0)
      ∧ (20 ≤ t + 1 → (Avg_Volume bars).getD t PFloat.nan
          = PFloat.fin ((∑ i ∈ Finset.range 20, (volumes bars).getD (t + 1 - 20 + i) 0) / 20))) := by
  constructor
  · constructor
    · intro hwarm
      rw [SMA_getD w bars t h, if_pos hwarm]
    · intro hfull
      rw [SMA_getD w bars t h, if_neg (by omega)]
      have hsplit : (closes bars).take (t + 1) = (closes bars).take ((t + 1 - w) + w) := by
        congr 1
        omega
      rw [hsplit, take_drop_sum (closes bars) (t + 1 - w) w (by simp; omega)]
  · constructor
    · intro hwarm
      rw [Avg_Volume_getD bars t h, if_pos hwarm]
    · intro hfull
      rw [Avg_Volume_getD bars t h, if_neg (by omega)]
      have hsplit : (volumes bars).take (t + 1) = (volumes bars).take ((t + 1 - 20) + 20) := by
        congr 1
        omega
      rw [hsplit, take_drop_sum (volumes bars) (t + 1 - 20) 20 (by simp; omega)]

/-- Claim C4 witness: evaluated on a two-bar series with window 2: bar 0 is
warm-up (SMA 0), bar 1 carries the mean of the two closes. -/
theorem C4_rolling_mean_witness :
    ((0 + 1 < 2 → (SMA 2 [⟨0, 0, 1, 0, 1, 5⟩, ⟨1, 0, 2, 0, 2, 5⟩]).getD 0 PFloat.nan
        = PFloat.fin 0)
      ∧ (2 ≤ 0 + 1 → (SMA 2 [⟨0, 0, 1, 0, 1, 5⟩, ⟨1, 0, 2, 0, 2, 5⟩]).getD 0 PFloat.nan
          = PFloat.fin ((∑ i ∈ Finset.range 2,
              (closes [⟨0, 0, 1, 0, 1, 5⟩, ⟨1, 0, 2, 0, 2, 5⟩]).getD (0 + 1 - 2 + i) 0) / 2)))
    ∧ ((0 + 1 < 20 → (Avg_Volume [⟨0, 0, 1, 0, 1, 5⟩, ⟨1, 0, 2, 0, 2, 5⟩]).getD 0 PFloat.nan
        = PFloat.fin 0)
      ∧ (20 ≤ 0 + 1 → (Avg_Volume [⟨0, 0, 1, 0, 1, 5⟩, ⟨1, 0, 2, 0, 2, 5⟩]).getD 0 PFloat.nan
          = PFloat.fin ((∑ i ∈ Finset.range 20,
              (volumes [⟨0, 0, 1, 0, 1, 5⟩, ⟨1, 0, 2, 0, 2, 5⟩]).getD (0 + 1 - 20 + i) 0) / 20))) := by
  exact C4_rolling_mean 2 [⟨0, 0, 1, 0, 1, 5⟩, ⟨1, 0, 2, 0, 2, 5⟩] 0 (by decide) (by decide)

/-- Claim C5: in a non-empty series, every index kept by the signal filter
has a following bar (its `Next_Close` is not NaN), and — with the
data-model assumption of unique timestamps — no record in
`signal_records` carries the last bar's timestamp. -/
theorem C5_last_bar_excluded (w : ℕ) (th mult : ℚ) (bars : List Bar)
    (hne : bars ≠ []) (hts : (bars.map Bar.timestamp).Nodup) :
    (∀ t ∈ signalIdx w th mult bars, t + 1 < bars.length)
    ∧ ∀ r ∈ signal_records w th mult bars,
        r.timestamp ≠ (bars.getLast hne).timestamp := by
  have hidx : ∀ t ∈ signalIdx w th mult bars, t + 1 < bars.length := by
    intro t ht
    obtain ⟨h1, _, h3⟩ := (mem_signalIdx w th mult bars t).mp ht
    by_contra hcon
    rw [Next_Close_getD bars t h1, dif_neg hcon] at h3
    simp at h3
  refine ⟨hidx, ?_⟩
  intro r hr
  obtain ⟨t, ht, rfl⟩ := (mem_signal_records w th mult bars r).mp hr
  have h1 : t < bars.length := ((mem_signalIdx w th mult bars t).mp ht).1
  have h2 : t + 1 < bars.length := hidx t ht
  have hpos : 0 < bars.length := Nat.pos_of_ne_zero (by simpa using hne)
  intro heq
  rw [List.getLast_eq_getElem bars hne] at heq
  rw [List.getD_eq_getElem bars default h1] at heq
  have hlt : t < (bars.map Bar.timestamp).length := by simpa using h1
  have hlt2 : bars.length - 1 < (bars.map Bar.timestamp).length := by
    simp only [List.length_map]
    omega
  have hmap : (bars.map Bar.timestamp)[t] = (bars.map Bar.timestamp)[bars.length - 1] := by
    simp only [List.getElem_map]
    exact heq
  have := (hts.getElem_inj_iff).mp hmap
  omega

/-- Claim C5 witness: on the two-bar fixture, index 0 (the kept signal
index) has a following bar, and the one produced record does not carry the
last bar's timestamp. -/
theorem C5_last_bar_excluded_witness :
    ((0 : ℕ) + 1 < twoBars.length)
    ∧ (⟨0, 1, PFloat.fin 1, PFloat.inf, PFloat.fin 2, PFloat.fin 1, true⟩ : SignalRecord).timestamp
        ≠ (twoBars.getLast (by decide)).timestamp := by
  constructor
  · exact (C5_last_bar_excluded 20 1 2 twoBars (by decide) (by decide)).1 0
      (by rw [twoBars_signalIdx]; decide)
  · exact (C5_last_bar_excluded 20 1 2 twoBars (by decide) (by decide)).2 _
      (by rw [twoBars_records]; decide)

/-- Claim C6: when the filtered signal set is empty the run reports the
explicit no-signals outcome (which carries no summary numbers at all, so no
division by zero or NaN is surfaced); on empty input every derived series
is empty and the run likewise reports the no-signals outcome. -/
theorem C6_no_signals (w : ℕ) (th mult : ℚ) (bars : List Bar)
    (h : signal_records w th mult bars = []) :
    run_backtest w th mult bars = BacktestOutcome.noSignals
    ∧ signal_records w th mult ([] : List Bar) = []
    ∧ SMA w [] = [] ∧ Avg_Volume [] = [] ∧ High_Close_Ratio [] = []
    ∧ Volume_Ratio [] = [] ∧ Signal w th mult [] = []
    ∧ Next_Close [] = [] ∧ Return [] = [] ∧ Success [] = []
    ∧ run_backtest w th mult [] = BacktestOutcome.noSignals := by
  refine ⟨?_, rfl, rfl, rfl, rfl, rfl, rfl, rfl, rfl, rfl, rfl⟩
  simp [run_backtest, h]

/-- Claim C6 witness: the no-signals outcome on the empty bar series. -/
theorem C6_no_signals_witness :
    run_backtest 20 1 2 ([] : List Bar) = BacktestOutcome.noSignals
    ∧ signal_records 20 1 2 ([] : List Bar) = []
    ∧ SMA 20 [] = [] ∧ Avg_Volume [] = [] ∧ High_Close_Ratio [] = []
    ∧ Volume_Ratio [] = [] ∧ Signal 20 1 2 [] = []
    ∧ Next_Close [] = [] ∧ Return [] = [] ∧ Success [] = []
    ∧ run_backtest 20 1 2 [] = BacktestOutcome.noSignals :=
  C6_no_signals 20 1 2 [] rfl

/-- Claim C7, counterexample: on the two-bar fixture the run produces one
record with one success, so `successes / total = 1`, but the summary's
`success_rate` is 100 (the source stores `mean * 100`, a percentage), not
1. -/
theorem C7_counterexample :
    run_backtest 20 1 2 twoBars =
      BacktestOutcome.results
        [⟨0, 1, PFloat.fin 1, PFloat.inf, PFloat.fin 2, PFloat.fin 1, true⟩]
        ⟨1, 1, PFloat.fin 100, PFloat.fin 100⟩
    ∧ PFloat.fin 100 ≠ PFloat.fin ((1 : ℚ) / 1) := by
  refine ⟨twoBars_run, ?_⟩
  norm_num

/-- Claim C7 (amended): whenever the run returns a results outcome, the
total is positive and equals the record count, `successes` counts the
records with `Success = true`, `success_rate` is `100 · successes / total`
(the rate as a percentage), and — when every record's return is finite —
`avg_return` is `100 ·` the arithmetic mean of the returns. -/
theorem C7_summary_formulas (w : ℕ) (th mult : ℚ) (bars : List Bar)
    (recs : List SignalRecord) (s : BacktestSummary) (qs : List ℚ)
    (hrun : run_backtest w th mult bars = BacktestOutcome.results recs s)
    (hq : recs.map (fun r => r.Return) = qs.map PFloat.fin) :
    0 < s.total_signals
    ∧ s.total_signals = recs.length
    ∧ s.successes = recs.countP (fun r => r.Success)
    ∧ s.success_rate
        = PFloat.fin (100 * ((recs.countP (fun r => r.Success) : ℚ) / recs.length))
    ∧ s.avg_return = PFloat.fin (100 * (qs.sum / recs.length)) := by
  simp only [run_backtest] at hrun
  by_cases hemp : (signal_records w th mult bars).isEmpty
  · rw [if_pos hemp] at hrun
    simp at hrun
  · rw [if_neg hemp] at hrun
    injection hrun with hrec hsum
    subst hrec
    subst hsum
    have hne : signal_records w th mult bars ≠ [] := by
      simpa [List.isEmpty_iff] using hemp
    have hlen : (signal_records w th mult bars).length ≠ 0 := by
      simpa using fun hxx => hne (List.length_eq_zero.mp hxx)
    have hql : qs.length = (signal_records w th mult bars).length := by
      have := congrArg List.length hq
      simpa using this.symm
    refine ⟨Nat.pos_of_ne_zero hlen, rfl, rfl, ?_, ?_⟩
    · simp only [boolMean, List.length_map, List.countP_map, hlen, if_false]
      simp [Function.comp_def]
    · simp only
      rw [hq]
      have hfil : (qs.map PFloat.fin).filter (fun x => !x.isNa) = qs.map PFloat.fin := by
        apply List.filter_eq_self.mpr
        intro a ha
        obtain ⟨q, hqmem, rfl⟩ := List.mem_map.mp ha
        simp
      have hq0 : qs.length ≠ 0 := by rw [hql]; exact hlen
      simp only [pmean, hfil, List.length_map]
      rw [if_neg hq0, foldl_add_fin, zero_add]
      have hcast : ((qs.length : ℚ)) ≠ 0 := by
        exact_mod_cast hq0
      have hdiv : PFloat.div (PFloat.fin qs.sum) (PFloat.fin ((qs.length : ℚ)))
          = PFloat.fin (qs.sum / ((qs.length : ℚ))) := by
        simp only [PFloat.div]
        rw [if_neg hcast]
      rw [hdiv, hql]
      simp

/-- Claim C7 witness: the amended summary formulas evaluated on the
two-bar fixture: total 1, successes 1, rate `100 · 1/1`, mean return
`100 · 1/1`. -/
theorem C7_summary_formulas_witness :
    0 < (1 : ℕ)
    ∧ (1 : ℕ)
        = [(⟨0, 1, PFloat.fin 1, PFloat.inf, PFloat.fin 2, PFloat.fin 1, true⟩ : SignalRecord)].length
    ∧ (1 : ℕ)
        = [(⟨0, 1, PFloat.fin 1, PFloat.inf, PFloat.fin 2, PFloat.fin 1, true⟩ : SignalRecord)].countP
            (fun r => r.Success)
    ∧ PFloat.fin 100
        = PFloat.fin (100 * ((([(⟨0, 1, PFloat.fin 1, PFloat.inf, PFloat.fin 2, PFloat.fin 1,
            true⟩ : SignalRecord)].countP (fun r => r.Success) : ℚ))
            / [(⟨0, 1, PFloat.fin 1, PFloat.inf, PFloat.fin 2, PFloat.fin 1, true⟩ : SignalRecord)].length))
    ∧ PFloat.fin 100
        = PFloat.fin (100 * (List.sum [(1 : ℚ)]
            / [(⟨0, 1, PFloat.fin 1, PFloat.inf, PFloat.fin 2, PFloat.fin 1, true⟩ : SignalRecord)].length)) := by
  exact C7_summary_formulas 20 1 2 twoBars
    [⟨0, 1, PFloat.fin 1, PFloat.inf, PFloat.fin 2, PFloat.fin 1, true⟩]
    ⟨1, 1, PFloat.fin 100, PFloat.fin 100⟩ [1] twoBars_run (by decide)

/-- Claim C8: the core is deterministic — identical bar sequences and
identical thresholds produce identical signal records and identical run
outcomes (the computation is a pure function of its arguments). -/
theorem C8_determinism (w1 w2 : ℕ) (th1 th2 m1 m2 : ℚ) (bars1 bars2 : List Bar)
    (hw : w1 = w2) (hth : th1 = th2) (hm : m1 = m2) (hb : bars1 = bars2) :
    signal_records w1 th1 m1 bars1 = signal_records w2 th2 m2 bars2
    ∧ run_backtest w1 th1 m1 bars1 = run_backtest w2 th2 m2 bars2 := by
  subst hw
  subst hth
  subst hm
  subst hb
  exact ⟨rfl, rfl⟩

/-- Claim C8 witness: determinism instantiated on the two-bar fixture. -/
theorem C8_determinism_witness :
    signal_records 20 1 2 twoBars = signal_records 20 1 2 twoBars
    ∧ run_backtest 20 1 2 twoBars = run_backtest 20 1 2 twoBars :=
  C8_determinism 20 20 1 1 2 2 twoBars twoBars rfl rfl rfl rfl

/-- Claim C9: every derived series has exactly the input length; the kept
signal indices are strictly increasing (no reordering); and each series
entry at position `t` is the stated function of the bar at the same
position `t` (and, for the rolling/shift columns, its neighbours), so each
record is aligned with its source bar. -/
theorem C9_alignment (w : ℕ) (th mult : ℚ) (bars : List Bar) :
    (SMA w bars).length = bars.length
    ∧ (Avg_Volume bars).length = bars.length
    ∧ (High_Close_Ratio bars).length = bars.length
    ∧ (Volume_Ratio bars).length = bars.length
    ∧ (Strong_Trend w bars).length = bars.length
    ∧ (High_Close th bars).length = bars.length
    ∧ (High_Volume mult bars).length = bars.length
    ∧ (Signal w th mult bars).length = bars.length
    ∧ (Next_Close bars).length = bars.length
    ∧ (Return bars).length = bars.length
    ∧ (Success bars).length = bars.length
    ∧ List.Pairwise (· < ·) (signalIdx w th mult bars)
    ∧ (∀ t, t < bars.length →
        (High_Close_Ratio bars).getD t PFloat.nan
            = PFloat.fillna0 (PFloat.div (PFloat.fin ((bars.getD t default).Close))
                (PFloat.fin ((bars.getD t default).High)))
          ∧ (Volume_Ratio bars).getD t PFloat.nan
            = PFloat.fillna0 (PFloat.div (PFloat.fin ((bars.getD t default).Volume))
                ((Avg_Volume bars).getD t PFloat.nan))
          ∧ (Strong_Trend w bars).getD t false
            = PFloat.gt (PFloat.fin ((bars.getD t default).Close))
                ((SMA w bars).getD t PFloat.nan)
          ∧ (Next_Close bars).getD t PFloat.nan
            = (if t + 1 < bars.length
               then PFloat.fin ((bars.getD (t + 1) default).Close) else PFloat.nan)
          ∧ (Return bars).getD t PFloat.nan
            = PFloat.div (PFloat.sub ((Next_Close bars).getD t PFloat.nan)
                  (PFloat.fin ((bars.getD t default).Close)))
                (PFloat.fin ((bars.getD t default).Close))
          ∧ (Success bars).getD t false
            = PFloat.gt ((Return bars).getD t PFloat.nan) (PFloat.fin 0))
    ∧ (∀ r ∈ signal_records w th mult bars, ∃ t, t < bars.length
        ∧ r.timestamp = (bars.getD t default).timestamp
        ∧ r.Close = (bars.getD t default).Close) := by
  refine ⟨SMA_length w bars, Avg_Volume_length bars, High_Close_Ratio_length bars,
    Volume_Ratio_length bars, Strong_Trend_length w bars, High_Close_length th bars,
    High_Volume_length mult bars, Signal_length w th mult bars, Next_Close_length bars,
    Return_length bars, Success_length bars, ?_, ?_, ?_⟩
  · exact (List.pairwise_lt_range bars.length).filter _
  · intro t ht
    refine ⟨High_Close_Ratio_getD bars t ht, Volume_Ratio_getD bars t ht,
      Strong_Trend_getD w bars t ht, ?_, Return_getD bars t ht, Success_getD bars t ht⟩
    rw [Next_Close_getD bars t ht]
    by_cases h2 : t + 1 < bars.length
    · rw [dif_pos h2, if_pos h2, closes_getD bars (t + 1) h2]
    · rw [dif_neg h2, if_neg h2]
  · intro r hr
    obtain ⟨t, ht, rfl⟩ := (mem_signal_records w th mult bars r).mp hr
    have h1 : t < bars.length := ((mem_signalIdx w th mult bars t).mp ht).1
    exact ⟨t, h1, rfl, closes_getD bars t h1⟩

/-- Claim C9 witness: the alignment invariant evaluated on the two-bar
fixture (length of the SMA column equals the input length). -/
theorem C9_alignment_witness : (SMA 20 twoBars).length = twoBars.length :=
  (C9_alignment 20 1 2 twoBars).1

/-- Claim C10: if every input close is non-negative, every produced signal
record has a strictly positive close — `Signal` requires
`Close > SMA` and the SMA value is non-negative (warm-up 0 or a mean of
non-negative closes) — so the forward return of every record is the
well-defined finite quotient `(next_close − close) / close`, never a
division by zero. -/
theorem C10_signal_close_positive (w : ℕ) (th mult : ℚ) (bars : List Bar)
    (hc : ∀ b ∈ bars, 0 ≤ b.Close) :
    ∀ r ∈ signal_records w th mult bars,
      0 < r.Close ∧ ∃ nc : ℚ, r.Next_Close = PFloat.fin nc
        ∧ r.Return = PFloat.fin ((nc - r.Close) / r.Close) := by
  intro r hr
  obtain ⟨t, ht, rfl⟩ := (mem_signal_records w th mult bars r).mp hr
  obtain ⟨h1, hsig, hna⟩ := (mem_signalIdx w th mult bars t).mp ht
  rw [Signal_getD w th mult bars t h1] at hsig
  simp only [Bool.and_eq_true] at hsig
  have hst := hsig.1
  rw [Strong_Trend_getD w bars t h1] at hst
  obtain ⟨s, hs, hs0⟩ := SMA_nonneg w bars t h1 hc
  rw [hs] at hst
  simp only [PFloat.gt, PFloat.lt_fin_fin, decide_eq_true_eq] at hst
  have hclose : 0 < (bars.getD t default).Close := lt_of_le_of_lt hs0 hst
  have hcg := closes_getD bars t h1
  have hcpos : 0 < (closes bars).getD t 0 := by rw [hcg]; exact hclose
  refine ⟨hcpos, ?_⟩
  by_cases h2 : t + 1 < bars.length
  · have hnc : (Next_Close bars).getD t PFloat.nan
        = PFloat.fin ((closes bars).getD (t + 1) 0) := by
      rw [Next_Close_getD bars t h1, dif_pos h2]
    refine ⟨(closes bars).getD (t + 1) 0, hnc, ?_⟩
    show (Return bars).getD t PFloat.nan = _
    rw [Return_getD bars t h1, hnc, PFloat.sub_fin_fin, hcg]
    simp only [PFloat.div]
    rw [if_neg hclose.ne.symm]
  · exfalso
    rw [Next_Close_getD bars t h1, dif_neg h2] at hna
    simp at hna

/-- Claim C10 witness: on the two-bar fixture (all closes non-negative),
the produced record has close 1 > 0 and finite return `(2 − 1) / 1`. -/
theorem C10_signal_close_positive_witness :
    0 < (⟨0, 1, PFloat.fin 1, PFloat.inf, PFloat.fin 2, PFloat.fin 1,
        true⟩ : SignalRecord).Close
    ∧ ∃ nc : ℚ,
        (⟨0, 1, PFloat.fin 1, PFloat.inf, PFloat.fin 2, PFloat.fin 1,
          true⟩ : SignalRecord).Next_Close = PFloat.fin nc
        ∧ (⟨0, 1, PFloat.fin 1, PFloat.inf, PFloat.fin 2, PFloat.fin 1,
            true⟩ : SignalRecord).Return
          = PFloat.fin ((nc - (⟨0, 1, PFloat.fin 1, PFloat.inf, PFloat.fin 2, PFloat.fin 1,
              true⟩ : SignalRecord).Close)
            / (⟨0, 1, PFloat.fin 1, PFloat.inf, PFloat.fin 2, PFloat.fin 1,
              true⟩ : SignalRecord).Close) := by
  exact C10_signal_close_positive 20 1 2 twoBars (by decide) _
    (by rw [twoBars_records]; decide)

end HighCloseRatio
